import Mathlib

/-! Shallow embedding of the flip-dot display driver (src/main/flip_dot.c,
src/main/flip_dot.h) and proofs about its addressing and update engine.

The driver is sequential and its only side effects are GPIO level writes and
blocking delays, so each C function is modelled as a pure Lean function that
returns its successor display state together with the list of emitted events
(GPIO writes and delays), in program order.  Machine integers are modelled as
Nat, with an explicit mod 2^16 where the C code can wrap (the uint16_t loop
counter of the Fisher-Yates shuffle).  The uninitialized in-array tail of the
C stack array flip_list is modelled as an arbitrary function argument, and
the rand() stream as an arbitrary function from call index to Nat.  An access
of flip_list outside its DISPLAY_HEIGHT * DISPLAY_WIDTH entries is undefined
behavior in C, so the operations that can perform one are Option-valued and
return none for such an execution rather than pretending the access is a
benign read or write of extra storage.
-/

/-- Display width, from flip_dot.h. -/
def DISPLAY_WIDTH : Nat := 28

/-- Display height, from flip_dot.h. -/
def DISPLAY_HEIGHT : Nat := 13

/-- sweep_mode_t from flip_dot.h. -/
inductive SweepMode where
  | SWEEP_ROW
  | SWEEP_COL
  | SWEEP_DIAG
  | SWEEP_RANDOM
deriving DecidableEq

/-- gpio_pin_t from flip_dot.h: a pin number plus a polarity-inversion flag. -/
structure GpioPinT where
  pin : Nat
  is_inverted : Bool
deriving DecidableEq

/-- Observable events of the driver: a physical GPIO level write
(gpio_set_level), or a blocking delay. -/
inductive Ev where
  | gpio (pin : Nat) (level : Bool)
  | delayUs (us : Nat)
  | delayMs (ms : Nat)
deriving DecidableEq

/-- gpio_write from flip_dot.c: drives the physical level
value XOR is_inverted. -/
def gpio_write (pin : Nat) (value : Bool) (is_inverted : Bool) : List Ev :=
  [Ev.gpio pin (if is_inverted then !value else value)]

/-- demux_74HC4514_t from flip_dot.h (4-to-16 position decoder pins). -/
structure Demux74HC4514 where
  pin_A0 : GpioPinT
  pin_A1 : GpioPinT
  pin_A2 : GpioPinT
  pin_A3 : GpioPinT
deriving DecidableEq

/-- demux_74HC139_t from flip_dot.h (dual 2-to-4 group/enable decoder pins). -/
structure Demux74HC139 where
  pin_1A0 : GpioPinT
  pin_1A1 : GpioPinT
  pin_2A0 : GpioPinT
  pin_2A1 : GpioPinT
  pin_1E : GpioPinT
  pin_2E : GpioPinT
deriving DecidableEq

/-- demux_74HC4514_set_output from flip_dot.c.  decimal_to_bin(pos, 4, binary)
puts bit 3 of pos in binary[0] ... bit 0 in binary[3]; the code then writes
binary[3] (bit 0) to A0, binary[2] (bit 1) to A1, binary[1] (bit 2) to A2,
and, when the optional A3 pin is present (pin number not 0xFF), the negation
of binary[0] (bit 3) to A3. -/
def demux_74HC4514_set_output (d : Demux74HC4514) (output_pos : Nat) : List Ev :=
  gpio_write d.pin_A0.pin (output_pos.testBit 0) d.pin_A0.is_inverted ++
  gpio_write d.pin_A1.pin (output_pos.testBit 1) d.pin_A1.is_inverted ++
  gpio_write d.pin_A2.pin (output_pos.testBit 2) d.pin_A2.is_inverted ++
  (if d.pin_A3.pin ≠ 0xFF then
    gpio_write d.pin_A3.pin (!(output_pos.testBit 3)) d.pin_A3.is_inverted
  else [])

/-- demux_74HC139_set_row_output from flip_dot.c: writes the two row-group
select bits (binary[1] = bit 0 of row_grp to 1A0, binary[0] = bit 1 to 1A1),
then drives the row position decoder. -/
def demux_74HC139_set_row_output (d : Demux74HC139) (row_grp output_pos : Nat)
    (row_demux : Demux74HC4514) : List Ev :=
  gpio_write d.pin_1A0.pin (row_grp.testBit 0) d.pin_1A0.is_inverted ++
  gpio_write d.pin_1A1.pin (row_grp.testBit 1) d.pin_1A1.is_inverted ++
  demux_74HC4514_set_output row_demux output_pos

/-- demux_74HC139_set_col_output from flip_dot.c: same as the row half but on
the 2A0/2A1 select pair and the column position decoder. -/
def demux_74HC139_set_col_output (d : Demux74HC139) (col_grp output_pos : Nat)
    (col_demux : Demux74HC4514) : List Ev :=
  gpio_write d.pin_2A0.pin (col_grp.testBit 0) d.pin_2A0.is_inverted ++
  gpio_write d.pin_2A1.pin (col_grp.testBit 1) d.pin_2A1.is_inverted ++
  demux_74HC4514_set_output col_demux output_pos

/-- demux_74HC139_enable_output from flip_dot.c. -/
def demux_74HC139_enable_output (d : Demux74HC139) (channel : Nat) : List Ev :=
  if channel = 1 then gpio_write d.pin_1E.pin true d.pin_1E.is_inverted
  else if channel = 2 then gpio_write d.pin_2E.pin true d.pin_2E.is_inverted
  else []

/-- demux_74HC139_disable_output from flip_dot.c. -/
def demux_74HC139_disable_output (d : Demux74HC139) (channel : Nat) : List Ev :=
  if channel = 1 then gpio_write d.pin_1E.pin false d.pin_1E.is_inverted
  else if channel = 2 then gpio_write d.pin_2E.pin false d.pin_2E.is_inverted
  else []

/-- flip_dot_t from flip_dot.h.  pixel_state is the 13 x 28 uint8 mirror,
modelled as a total function; only indices below the display dimensions
correspond to cells of the C array (the C code never reads outside them,
though flip_dot_set_pixel can write outside them, which in C is an
out-of-bounds write). -/
structure FlipDotT where
  enable_demux : Demux74HC139
  col_demux : Demux74HC4514
  row_demux : Demux74HC4514
  flip_time_us : Nat
  sweep_mode : SweepMode
  pixel_state : Nat → Nat → Nat

/-- Row position decoder pin table bound by flip_dot_init
(PIN_ROW_A0 = 13, PIN_ROW_A1 = 12, PIN_ROW_A2 = 27, A3 unused = 0xFF). -/
def initRowDemux : Demux74HC4514 :=
  Demux74HC4514.mk (GpioPinT.mk 13 false) (GpioPinT.mk 12 false)
    (GpioPinT.mk 27 false) (GpioPinT.mk 0xFF false)

/-- Column position decoder pin table bound by flip_dot_init
(PIN_COL_A0 = 26, PIN_COL_A1 = 25, PIN_COL_A2 = 5, PIN_COL_A3 = 19 inverted). -/
def initColDemux : Demux74HC4514 :=
  Demux74HC4514.mk (GpioPinT.mk 26 false) (GpioPinT.mk 25 false)
    (GpioPinT.mk 5 false) (GpioPinT.mk 19 true)

/-- Group/enable decoder pin table bound by flip_dot_init
(1A0 = 33, 1A1 = 15, 2A0 = 32, 2A1 = 14, 1E = 21, 2E = 4). -/
def initEnableDemux : Demux74HC139 :=
  Demux74HC139.mk (GpioPinT.mk 33 false) (GpioPinT.mk 15 false)
    (GpioPinT.mk 32 false) (GpioPinT.mk 14 false)
    (GpioPinT.mk 21 false) (GpioPinT.mk 4 false)

/-- flip_dot_init from flip_dot.c: binds the board pin tables, stores the
pulse duration and sweep mode, memsets pixel_state to all zeros, then enables
channel 1 of the 74HC139 (pin_1E driven true), writes pin_2E low, and delays.
It issues no pixel flips. -/
def flip_dot_init (flip_time_us : Nat) (sweep_mode : SweepMode) :
    FlipDotT × List Ev :=
  (FlipDotT.mk initEnableDemux initColDemux initRowDemux flip_time_us sweep_mode
    (fun _ _ => 0),
   demux_74HC139_enable_output initEnableDemux 1 ++
   gpio_write 4 false false ++
   [Ev.delayMs 200, Ev.delayMs 200])

/-- flip_dot_set_pixel from flip_dot.c.  No range check is performed on row or
col: the decoder signal writes, the enable pulse on pin_2E, and the
pixel_state store all happen unconditionally (for out-of-range coordinates the
C store pixel_state[row][col] = value is an out-of-bounds write).
Returns the new display state and the emitted event list. -/
def flip_dot_set_pixel (d : FlipDotT) (row col : Nat) (value : Bool) :
    FlipDotT × List Ev :=
  (FlipDotT.mk d.enable_demux d.col_demux d.row_demux d.flip_time_us d.sweep_mode
    (fun r c => if r = row ∧ c = col then (if value then 1 else 0)
                else d.pixel_state r c),
   demux_74HC139_set_row_output d.enable_demux (row / 7)
     (row % 7 + 1 + (if !value then 1 else 0) * 8) d.row_demux ++
   demux_74HC139_set_col_output d.enable_demux (col / 7)
     (col % 7 + 1 + (if !value then 1 else 0) * 8) d.col_demux ++
   gpio_write d.enable_demux.pin_2E.pin true d.enable_demux.pin_2E.is_inverted ++
   [Ev.delayUs d.flip_time_us] ++
   gpio_write d.enable_demux.pin_2E.pin false d.enable_demux.pin_2E.is_inverted ++
   [Ev.delayUs 1000])

/-- Row-major enumeration of a rectangle of coordinates: the nested
for-loops of flip_dot_clear_display, flip_dot_set_rows_cols and the diff scan
of flip_dot_update_display all traverse coordinates in this order. -/
def pixelSeq (rs cs : List Nat) : List (Nat × Nat) :=
  rs.flatMap (fun r => cs.map (fun c => (r, c)))

/-- Sequentially apply flip_dot_set_pixel with a fixed value to a list of
coordinates, threading the display state and concatenating the event lists. -/
def runSetPixels (v : Bool) : FlipDotT → List (Nat × Nat) → FlipDotT × List Ev
  | d, [] => (d, [])
  | d, rc :: rest =>
    let s := flip_dot_set_pixel d rc.1 rc.2 v
    let s2 := runSetPixels v s.1 rest
    (s2.1, s.2 ++ s2.2)

/-- flip_dot_clear_display from flip_dot.c: nested loops over
r < DISPLAY_HEIGHT, c < DISPLAY_WIDTH calling flip_dot_set_pixel(d, r, c, false). -/
def flip_dot_clear_display (d : FlipDotT) : FlipDotT × List Ev :=
  runSetPixels false d (pixelSeq (List.range DISPLAY_HEIGHT) (List.range DISPLAY_WIDTH))

/-- flip_dot_set_rows_cols from flip_dot.c: nested loops over
row_start <= r <= row_end, col_start <= c <= col_end calling
flip_dot_set_pixel(d, r, c, pixel_value). -/
def flip_dot_set_rows_cols (d : FlipDotT) (row_start row_end col_start col_end : Nat)
    (pixel_value : Bool) : FlipDotT × List Ev :=
  runSetPixels pixel_value d
    (pixelSeq (List.range' row_start (row_end + 1 - row_start))
              (List.range' col_start (col_end + 1 - col_start)))

/-- The diff scan of flip_dot_update_display: all coordinates (r, c) in
row-major order with data[r][c] != pixel_state[r][c] (uint8 comparison). -/
def diffList (st data : Nat → Nat → Nat) : List (Nat × Nat) :=
  (pixelSeq (List.range DISPLAY_HEIGHT) (List.range DISPLAY_WIDTH)).filter
    (fun rc => decide (data rc.1 rc.2 ≠ st rc.1 rc.2))

/-- One inner pass of the SWEEP_COL exchange sort of flip_dot_update_display:
for a fixed outer index holding h, scan the remaining entries left to right
and swap whenever the held entry has the larger column
(flip_list[i][1] > flip_list[j][1]).  Returns the entry left at the outer
index and the remaining entries in their final positions. -/
def selPass (h : Nat × Nat) : List (Nat × Nat) → (Nat × Nat) × List (Nat × Nat)
  | [] => (h, [])
  | x :: xs =>
    if h.2 > x.2 then
      ((selPass x xs).1, h :: (selPass x xs).2)
    else
      ((selPass h xs).1, x :: (selPass h xs).2)

/-- The SWEEP_COL sort of flip_dot_update_display, with explicit fuel (the
fuel is always instantiated with the list length, which the inner pass
preserves, so the zero-fuel case is never hit from colSort). -/
def colSortFuel : Nat → List (Nat × Nat) → List (Nat × Nat)
  | 0, l => l
  | _ + 1, [] => []
  | fuel + 1, h :: t => (selPass h t).1 :: colSortFuel fuel (selPass h t).2

/-- The SWEEP_COL branch of flip_dot_update_display: the double loop
for i, for j > i, swapping when flip_list[i][1] > flip_list[j][1]. -/
def colSort (l : List (Nat × Nat)) : List (Nat × Nat) :=
  colSortFuel l.length l

/-- Exchange two slots of the flip_list store, as the swap bodies of the
SWEEP_COL and SWEEP_RANDOM branches do. -/
def swapIdx (f : Nat → Nat × Nat) (i j : Nat) : Nat → Nat × Nat :=
  fun k => if k = i then f j else if k = j then f i else f k

/-- The SWEEP_RANDOM Fisher-Yates loop of flip_dot_update_display:
for (uint16_t i = start; i > 0; i--) swap flip_list[i] with
flip_list[rand() % (i + 1)] (the uint16_t i is promoted to int before i + 1,
so the modulus never wraps).  rands gives the successive rand() values and k
counts the calls already made.  The C array flip_list has exactly
DISPLAY_HEIGHT * DISPLAY_WIDTH entries; an iteration whose swap would touch
an index outside that bound is an out-of-bounds access of the stack array,
undefined behavior in C, so the model aborts with none there instead of
treating such slots as usable storage. -/
def fyShuffle (rands : Nat → Nat) (f : Nat → Nat × Nat) :
    Nat → Nat → Option (Nat → Nat × Nat)
  | 0, _ => some f
  | i + 1, k =>
    if i + 1 < DISPLAY_HEIGHT * DISPLAY_WIDTH ∧
        rands k % (i + 1 + 1) < DISPLAY_HEIGHT * DISPLAY_WIDTH then
      fyShuffle rands (swapIdx f (i + 1) (rands k % (i + 1 + 1))) i (k + 1)
    else none

/-- The (i, j) index pairs at which the Fisher-Yates loop of
flip_dot_update_display accesses flip_list, in loop order. -/
def fyIndices (rands : Nat → Nat) : Nat → Nat → List (Nat × Nat)
  | 0, _ => []
  | i + 1, k => (i + 1, rands k % (i + 1 + 1)) :: fyIndices rands i (k + 1)

/-- The initial loop index of the Fisher-Yates loop: the uint16_t value of
flip_count - 1, i.e. (flip_count + 2^16 - 1) mod 2^16 (65535 when
flip_count = 0). -/
def fyStart (flip_count : Nat) : Nat :=
  (flip_count + 65535) % 65536

/-- The ordered list of coordinates flipped by flip_dot_update_display: the
row-major diff list, reordered by the sweep-mode switch (SWEEP_ROW and the
unimplemented SWEEP_DIAG leave it unchanged, SWEEP_COL applies the exchange
sort, SWEEP_RANDOM applies the Fisher-Yates shuffle to the flip_list store
and re-reads its first flip_count entries).  junk models the uninitialized
in-array contents of flip_list past flip_count.  The result is none when the
SWEEP_RANDOM shuffle would access flip_list out of bounds (which happens
exactly when flip_count = 0, through the uint16_t underflow of
flip_count - 1): from that point on the C program has undefined behavior, so
the model defines no flip order for it. -/
def updateFlipOrder (d : FlipDotT) (data : Nat → Nat → Nat) (rands : Nat → Nat)
    (junk : Nat → Nat × Nat) : Option (List (Nat × Nat)) :=
  let diffs := diffList d.pixel_state data
  let n := diffs.length
  match d.sweep_mode with
  | SweepMode.SWEEP_ROW => some diffs
  | SweepMode.SWEEP_COL => some (colSort diffs)
  | SweepMode.SWEEP_DIAG => some diffs
  | SweepMode.SWEEP_RANDOM =>
    Option.map (fun f2 => (List.range n).map f2)
      (fyShuffle rands (fun i => if i < n then diffs.getD i (0, 0) else junk i)
        (fyStart n) 0)

/-- The index pairs the Fisher-Yates loop uses when flip_dot_update_display
runs in SWEEP_RANDOM mode (empty in the other modes, which do not run it). -/
def updateShuffleIndices (d : FlipDotT) (data : Nat → Nat → Nat)
    (rands : Nat → Nat) : List (Nat × Nat) :=
  if d.sweep_mode = SweepMode.SWEEP_RANDOM then
    fyIndices rands (fyStart (diffList d.pixel_state data).length) 0
  else []

/-- The flip loop of flip_dot_update_display: for each listed coordinate,
call flip_dot_set_pixel with the target value data[r][c] (uint8 converted to
bool, i.e. true iff nonzero). -/
def runFlips (data : Nat → Nat → Nat) : FlipDotT → List (Nat × Nat) → FlipDotT × List Ev
  | d, [] => (d, [])
  | d, rc :: rest =>
    let s := flip_dot_set_pixel d rc.1 rc.2 (decide (data rc.1 rc.2 ≠ 0))
    let s2 := runFlips data s.1 rest
    (s2.1, s.2 ++ s2.2)

/-- flip_dot_update_display from flip_dot.c: diff scan, sweep reordering,
flip loop, then the bulk memcpy of data over pixel_state (the memcpy covers
exactly the 13 x 28 array).  The result is none when the sweep reordering is
undefined (the SWEEP_RANDOM out-of-bounds shuffle): the C program reaches the
flip loop and the memcpy only after the undefined accesses, so the model
guarantees nothing about that execution. -/
def flip_dot_update_display (d : FlipDotT) (data : Nat → Nat → Nat)
    (rands : Nat → Nat) (junk : Nat → Nat × Nat) : Option (FlipDotT × List Ev) :=
  Option.map
    (fun order =>
      let s := runFlips data d order
      (FlipDotT.mk s.1.enable_demux s.1.col_demux s.1.row_demux s.1.flip_time_us
        s.1.sweep_mode
        (fun r c => if r < DISPLAY_HEIGHT ∧ c < DISPLAY_WIDTH then data r c
                    else s.1.pixel_state r c),
       s.2))
    (updateFlipOrder d data rands junk)

/-- A display carrying the pin tables bound by flip_dot_init together with an
arbitrary mirror, pulse duration and sweep mode.  Every display reachable
through the driver API has this shape, since flip_dot_init is the only
constructor and no operation writes the demux fields. -/
def mkDisplay (st : Nat → Nat → Nat) (t : Nat) (mode : SweepMode) : FlipDotT :=
  FlipDotT.mk initEnableDemux initColDemux initRowDemux t mode st

/-- Recognizes the start of an enable pulse: a write of level true to the
physical enable pin PIN_ENABLE_2E = 4, which flip_dot_set_pixel performs
exactly once per flip. -/
def isPulseOn : Ev → Bool
  | Ev.gpio p lvl => decide (p = 4) && lvl
  | _ => false

/-- Number of enable pulses issued in an event list. -/
def countPulses (tr : List Ev) : Nat :=
  tr.countP isPulseOn

/-- Recognizes a GPIO write on a given pin. -/
def onPin (p : Nat) : Ev → Bool
  | Ev.gpio q _ => decide (q = p)
  | _ => false

/-- Level of a pin after a trace: the last level written to it, if any. -/
def lineLevel (tr : List Ev) (p : Nat) : Option Bool :=
  tr.foldl
    (fun acc e =>
      match e with
      | Ev.gpio q lvl => if q = p then some lvl else acc
      | _ => acc)
    none

/-- Number of cells at which two frames of the display dimensions differ. -/
def hammingDistance (a b : Nat → Nat → Nat) : Nat :=
  (pixelSeq (List.range DISPLAY_HEIGHT) (List.range DISPLAY_WIDTH)).countP
    (fun rc => decide (a rc.1 rc.2 ≠ b rc.1 rc.2))

/-- The all-zero frame. -/
def zeroGrid : Nat → Nat → Nat := fun _ _ => 0

/-- A frame with pixels set at (0,2), (1,2) and (2,1) only: its row-major diff
list against the all-zero mirror holds two entries of column 2 followed by one
of column 1, the pattern on which the SWEEP_COL exchange sort reorders the
equal-column entries. -/
def exFrame : Nat → Nat → Nat := fun r c =>
  if (r = 0 ∧ c = 2) ∨ (r = 1 ∧ c = 2) ∨ (r = 2 ∧ c = 1) then 1 else 0

/-- Modelled from the spec, section 4.4 step 2:
output_position = offset + 1 + polarity_bit * 8. -/
def spec_output_position (offset : Nat) (polarity_bit : Bool) : Nat :=
  offset + 1 + (if polarity_bit then 1 else 0) * 8

/-- Modelled from the spec, section 4.4 steps 3 to 6: select the row group
and the row output position, select the column group and the column output
position, with one and the same polarity bit entering both output positions,
then pulse the shared enable channel for the configured duration and wait the
fixed recovery delay. -/
def spec_pixel_signal_trace (d : FlipDotT) (row_group row_offset col_group col_offset : Nat)
    (polarity_bit : Bool) : List Ev :=
  demux_74HC139_set_row_output d.enable_demux row_group
    (spec_output_position row_offset polarity_bit) d.row_demux ++
  demux_74HC139_set_col_output d.enable_demux col_group
    (spec_output_position col_offset polarity_bit) d.col_demux ++
  gpio_write d.enable_demux.pin_2E.pin true d.enable_demux.pin_2E.is_inverted ++
  [Ev.delayUs d.flip_time_us] ++
  gpio_write d.enable_demux.pin_2E.pin false d.enable_demux.pin_2E.is_inverted ++
  [Ev.delayUs 1000]

/-! Lemmas about the SWEEP_COL exchange sort. -/

theorem selPass_length (h : Nat × Nat) (t : List (Nat × Nat)) :
    (selPass h t).2.length = t.length := by
  induction t generalizing h with
  | nil => rfl
  | cons x xs ih =>
    simp only [selPass]
    split
    · simp [ih]
    · simp [ih]

theorem selPass_perm (h : Nat × Nat) (t : List (Nat × Nat)) :
    (h :: t).Perm ((selPass h t).1 :: (selPass h t).2) := by
  induction t generalizing h with
  | nil => rfl
  | cons x xs ih =>
    simp only [selPass]
    split
    · exact ((ih x).cons h).trans (List.Perm.swap _ _ _)
    · exact (List.Perm.swap _ _ _).trans (((ih h).cons x).trans (List.Perm.swap _ _ _))

theorem selPass_fst_le (h : Nat × Nat) (t : List (Nat × Nat)) :
    (selPass h t).1.2 ≤ h.2 := by
  induction t generalizing h with
  | nil => exact Nat.le_refl _
  | cons x xs ih =>
    simp only [selPass]
    split
    · exact Nat.le_trans (ih x) (Nat.le_of_lt (by assumption))
    · exact ih h

theorem selPass_fst_min (h : Nat × Nat) (t : List (Nat × Nat)) :
    ∀ y ∈ (selPass h t).2, (selPass h t).1.2 ≤ y.2 := by
  induction t generalizing h with
  | nil => intro y hy; simp [selPass] at hy
  | cons x xs ih =>
    simp only [selPass]
    split
    · intro y hy
      rcases List.mem_cons.mp hy with hy | hy
      · subst hy
        exact Nat.le_trans (selPass_fst_le x xs) (Nat.le_of_lt (by assumption))
      · exact ih x y hy
    · intro y hy
      rcases List.mem_cons.mp hy with hy | hy
      · subst hy
        exact Nat.le_trans (selPass_fst_le h xs) (Nat.le_of_not_lt (by assumption))
      · exact ih h y hy

theorem colSortFuel_perm :
    ∀ (fuel : Nat) (l : List (Nat × Nat)), l.length ≤ fuel →
      (colSortFuel fuel l).Perm l := by
  intro fuel
  induction fuel with
  | zero => intro l _; exact List.Perm.refl _
  | succ f ih =>
    intro l hl
    match l with
    | [] => exact List.Perm.refl _
    | h :: t =>
      have hlen : (selPass h t).2.length ≤ f := by
        rw [selPass_length]
        simpa using Nat.le_of_succ_le_succ hl
      exact (((ih _ hlen).cons _).trans (selPass_perm h t).symm)

theorem colSortFuel_sorted :
    ∀ (fuel : Nat) (l : List (Nat × Nat)), l.length ≤ fuel →
      (colSortFuel fuel l).Pairwise (fun a b => a.2 ≤ b.2) := by
  intro fuel
  induction fuel with
  | zero =>
    intro l hl
    have : l = [] := List.eq_nil_of_length_eq_zero (Nat.le_zero.mp hl)
    subst this
    exact List.Pairwise.nil
  | succ f ih =>
    intro l hl
    match l with
    | [] => exact List.Pairwise.nil
    | h :: t =>
      have hlen : (selPass h t).2.length ≤ f := by
        rw [selPass_length]
        simpa using Nat.le_of_succ_le_succ hl
      refine List.pairwise_cons.mpr ⟨?_, ih _ hlen⟩
      intro y hy
      exact selPass_fst_min h t y ((colSortFuel_perm f _ hlen).mem_iff.mp hy)

theorem colSort_perm (l : List (Nat × Nat)) : (colSort l).Perm l :=
  colSortFuel_perm l.length l (Nat.le_refl _)

theorem colSort_sorted (l : List (Nat × Nat)) :
    (colSort l).Pairwise (fun a b => a.2 ≤ b.2) :=
  colSortFuel_sorted l.length l (Nat.le_refl _)

/-! Lemmas about the SWEEP_RANDOM shuffle. -/

theorem swapIdx_of_ne (f : Nat → Nat × Nat) {a b i : Nat} (h1 : i ≠ a) (h2 : i ≠ b) :
    swapIdx f a b i = f i := by
  simp [swapIdx, h1, h2]

theorem rangeMap_swapIdx_perm (f : Nat → Nat × Nat) {n a b : Nat}
    (ha : a < n) (hb : b < n) :
    ((List.range n).map (swapIdx f a b)).Perm ((List.range n).map f) := by
  by_cases hab : a = b
  · subst hab
    have hmap : (List.range n).map (swapIdx f a a) = (List.range n).map f := by
      refine List.map_congr_left ?_
      intro i _
      by_cases hia : i = a
      · subst hia; simp [swapIdx]
      · simp [swapIdx, hia]
    rw [hmap]
  · have hae : a ∈ List.range n := List.mem_range.mpr ha
    have hbe : b ∈ (List.range n).erase a :=
      (List.mem_erase_of_ne (fun hba => hab (Eq.symm hba))).mpr (List.mem_range.mpr hb)
    have h1 : (List.range n).Perm (a :: (List.range n).erase a) :=
      List.perm_cons_erase hae
    have h2 : ((List.range n).erase a).Perm (b :: ((List.range n).erase a).erase b) :=
      List.perm_cons_erase hbe
    have h3 : (List.range n).Perm (a :: b :: ((List.range n).erase a).erase b) :=
      h1.trans (h2.cons a)
    have hnda : ((List.range n).erase a).Nodup := (List.nodup_range n).erase a
    have hmem : ∀ i ∈ ((List.range n).erase a).erase b, i ≠ a ∧ i ≠ b := by
      intro i hi
      have hib := (hnda.mem_erase_iff).mp hi
      have hia := ((List.nodup_range n).mem_erase_iff).mp hib.2
      exact ⟨hia.1, hib.1⟩
    have hmr : (((List.range n).erase a).erase b).map (swapIdx f a b) =
        (((List.range n).erase a).erase b).map f := by
      refine List.map_congr_left ?_
      intro i hi
      exact swapIdx_of_ne f (hmem i hi).1 (hmem i hi).2
    have hA : ((List.range n).map (swapIdx f a b)).Perm
        ((a :: b :: ((List.range n).erase a).erase b).map (swapIdx f a b)) :=
      h3.map _
    have hB : (a :: b :: ((List.range n).erase a).erase b).map (swapIdx f a b) =
        f b :: f a :: (((List.range n).erase a).erase b).map f := by
      simp only [List.map_cons]
      rw [hmr]
      have hba : b ≠ a := fun h => hab (Eq.symm h)
      have e1 : swapIdx f a b a = f b := by simp [swapIdx]
      have e2 : swapIdx f a b b = f a := by simp [swapIdx, hba]
      rw [e1, e2]
    have hC : (f b :: f a :: (((List.range n).erase a).erase b).map f).Perm
        ((a :: b :: ((List.range n).erase a).erase b).map f) := by
      simp only [List.map_cons]
      exact List.Perm.swap _ _ _
    exact (hA.trans (hB ▸ hC)).trans (h3.map f).symm

theorem fyShuffle_prefix_perm (rands : Nat → Nat) {n : Nat} :
    ∀ (i k : Nat) (f g : Nat → Nat × Nat), i < n →
      fyShuffle rands f i k = some g →
      ((List.range n).map g).Perm ((List.range n).map f) := by
  intro i
  induction i with
  | zero =>
    intro k f g _ hg
    simp only [fyShuffle, Option.some.injEq] at hg
    subst hg
    exact List.Perm.refl _
  | succ i2 ih =>
    intro k f g hlt hg
    have hj : rands k % (i2 + 1 + 1) < n :=
      Nat.lt_of_lt_of_le (Nat.mod_lt _ (by omega)) (by omega)
    simp only [fyShuffle] at hg
    split at hg
    · exact (ih (k + 1) _ g (by omega) hg).trans (rangeMap_swapIdx_perm f hlt hj)
    · exact absurd hg (by simp)

theorem fyShuffle_oob (rands : Nat → Nat) (f : Nat → Nat × Nat) (i k : Nat)
    (h : ¬ (i + 1 < DISPLAY_HEIGHT * DISPLAY_WIDTH ∧
      rands k % (i + 1 + 1) < DISPLAY_HEIGHT * DISPLAY_WIDTH)) :
    fyShuffle rands f (i + 1) k = none := by
  simp only [fyShuffle]
  rw [if_neg h]

theorem fyShuffle_isSome (rands : Nat → Nat) :
    ∀ (i k : Nat) (f : Nat → Nat × Nat), i < DISPLAY_HEIGHT * DISPLAY_WIDTH →
      ∃ g, fyShuffle rands f i k = some g := by
  intro i
  induction i with
  | zero => intro k f _; exact ⟨f, rfl⟩
  | succ i2 ih =>
    intro k f hi
    have hsize : DISPLAY_HEIGHT * DISPLAY_WIDTH = 364 := rfl
    have hj : rands k % (i2 + 1 + 1) < DISPLAY_HEIGHT * DISPLAY_WIDTH := by
      have := Nat.mod_lt (rands k) (show 0 < i2 + 1 + 1 by omega)
      omega
    obtain ⟨g, hg⟩ := ih (k + 1) (swapIdx f (i2 + 1) (rands k % (i2 + 1 + 1)))
      (by omega)
    refine ⟨g, ?_⟩
    simp only [fyShuffle]
    rw [if_pos ⟨hi, hj⟩]
    exact hg

theorem fyShuffle_eq_foldl (rands : Nat → Nat) :
    ∀ (i k : Nat) (f : Nat → Nat × Nat),
      (∀ ij ∈ fyIndices rands i k, ij.1 < DISPLAY_HEIGHT * DISPLAY_WIDTH ∧
        ij.2 < DISPLAY_HEIGHT * DISPLAY_WIDTH) →
      fyShuffle rands f i k =
        some ((fyIndices rands i k).foldl (fun g ij => swapIdx g ij.1 ij.2) f) := by
  intro i
  induction i with
  | zero => intro k f _; rfl
  | succ i2 ih =>
    intro k f hb
    have hhead := hb (i2 + 1, rands k % (i2 + 1 + 1)) (by simp [fyIndices])
    simp only [fyShuffle, fyIndices, List.foldl_cons]
    rw [if_pos hhead]
    refine ih (k + 1) _ ?_
    intro ij hij
    exact hb ij (by simp [fyIndices, hij])

theorem rangeMap_ifStore (l : List (Nat × Nat)) (junk : Nat → Nat × Nat) :
    (List.range l.length).map
      (fun i => if i < l.length then l.getD i (0, 0) else junk i) = l := by
  refine List.ext_getElem (by simp) ?_
  intro i h1 h2
  have hi : i < l.length := by simpa using h2
  simp [hi, List.getD_eq_getElem l (0, 0) hi]

set_option maxRecDepth 2048 in
theorem pixelSeq_length :
    (pixelSeq (List.range DISPLAY_HEIGHT) (List.range DISPLAY_WIDTH)).length = 364 := by
  simp [pixelSeq, DISPLAY_HEIGHT, DISPLAY_WIDTH, Function.comp]
  decide

theorem diffList_length_le (st data : Nat → Nat → Nat) :
    (diffList st data).length ≤ 364 := by
  have h := List.length_filter_le
    (fun rc : Nat × Nat => decide (data rc.1 rc.2 ≠ st rc.1 rc.2))
    (pixelSeq (List.range DISPLAY_HEIGHT) (List.range DISPLAY_WIDTH))
  rw [pixelSeq_length] at h
  exact h

theorem fyStart_of_pos {n : Nat} (h1 : 1 ≤ n) (h2 : n ≤ 364) :
    fyStart n = n - 1 := by
  unfold fyStart
  omega

/-! The sweep reordering is a permutation of the diff list. -/

theorem updateFlipOrder_random (st data : Nat → Nat → Nat) (t : Nat)
    (rands : Nat → Nat) (junk : Nat → Nat × Nat) :
    updateFlipOrder (mkDisplay st t SweepMode.SWEEP_RANDOM) data rands junk =
      Option.map (fun f2 => (List.range (diffList st data).length).map f2)
        (fyShuffle rands
          (fun i => if i < (diffList st data).length then (diffList st data).getD i (0, 0)
                    else junk i)
          (fyStart (diffList st data).length) 0) := rfl

theorem updateFlipOrder_perm (st data : Nat → Nat → Nat) (t : Nat) (mode : SweepMode)
    (rands : Nat → Nat) (junk : Nat → Nat × Nat) :
    ∀ order, updateFlipOrder (mkDisplay st t mode) data rands junk = some order →
      order.Perm (diffList st data) := by
  intro order horder
  cases mode with
  | SWEEP_ROW =>
    simp only [show updateFlipOrder (mkDisplay st t SweepMode.SWEEP_ROW) data rands junk =
      some (diffList st data) from rfl, Option.some.injEq] at horder
    subst horder
    exact List.Perm.refl _
  | SWEEP_COL =>
    simp only [show updateFlipOrder (mkDisplay st t SweepMode.SWEEP_COL) data rands junk =
      some (colSort (diffList st data)) from rfl, Option.some.injEq] at horder
    subst horder
    exact colSort_perm _
  | SWEEP_DIAG =>
    simp only [show updateFlipOrder (mkDisplay st t SweepMode.SWEEP_DIAG) data rands junk =
      some (diffList st data) from rfl, Option.some.injEq] at horder
    subst horder
    exact List.Perm.refl _
  | SWEEP_RANDOM =>
    rw [updateFlipOrder_random] at horder
    cases hfy : fyShuffle rands
        (fun i => if i < (diffList st data).length then (diffList st data).getD i (0, 0)
                  else junk i)
        (fyStart (diffList st data).length) 0 with
    | none => rw [hfy] at horder; simp at horder
    | some f2 =>
      rw [hfy] at horder
      simp only [Option.map_some', Option.some.injEq] at horder
      subst horder
      by_cases h0 : (diffList st data).length = 0
      · have hnil : diffList st data = [] := List.eq_nil_of_length_eq_zero h0
        rw [hnil]
        simp
      · have h1 : 1 ≤ (diffList st data).length := Nat.one_le_iff_ne_zero.mpr h0
        have h2 : (diffList st data).length ≤ 364 := diffList_length_le st data
        rw [fyStart_of_pos h1 h2] at hfy
        have hperm := @fyShuffle_prefix_perm rands (diffList st data).length
          ((diffList st data).length - 1) 0
          (fun i => if i < (diffList st data).length then (diffList st data).getD i (0, 0)
                    else junk i)
          f2 (by omega) hfy
        refine hperm.trans ?_
        rw [rangeMap_ifStore]

theorem updateFlipOrder_isSome (st data : Nat → Nat → Nat) (t : Nat)
    (mode : SweepMode) (rands : Nat → Nat) (junk : Nat → Nat × Nat)
    (h : mode = SweepMode.SWEEP_RANDOM → 1 ≤ (diffList st data).length) :
    ∃ order, updateFlipOrder (mkDisplay st t mode) data rands junk = some order := by
  cases mode with
  | SWEEP_ROW => exact ⟨diffList st data, rfl⟩
  | SWEEP_COL => exact ⟨colSort (diffList st data), rfl⟩
  | SWEEP_DIAG => exact ⟨diffList st data, rfl⟩
  | SWEEP_RANDOM =>
    have h1 : 1 ≤ (diffList st data).length := h rfl
    have h2 : (diffList st data).length ≤ 364 := diffList_length_le st data
    have hsize : DISPLAY_HEIGHT * DISPLAY_WIDTH = 364 := rfl
    obtain ⟨g, hg⟩ := fyShuffle_isSome rands ((diffList st data).length - 1) 0
      (fun i => if i < (diffList st data).length then (diffList st data).getD i (0, 0)
                else junk i)
      (by omega)
    refine ⟨(List.range (diffList st data).length).map g, ?_⟩
    rw [updateFlipOrder_random, fyStart_of_pos h1 h2, hg]
    rfl

theorem updateFlipOrder_noop_random (t : Nat) :
    updateFlipOrder (mkDisplay zeroGrid t SweepMode.SWEEP_RANDOM) zeroGrid
      (fun _ => 0) (fun _ => (0, 0)) = none := by
  have hlen : (diffList zeroGrid zeroGrid).length = 0 := by decide
  rw [updateFlipOrder_random, hlen]
  rw [show fyStart 0 = 65534 + 1 from rfl]
  rw [fyShuffle_oob]
  · rfl
  · intro hcon
    exact absurd hcon.1 (by decide)

theorem diffList_length_eq_hamming (st data : Nat → Nat → Nat) :
    (diffList st data).length = hammingDistance st data := by
  unfold diffList hammingDistance
  rw [List.countP_eq_length_filter]
  congr 1
  refine List.filter_congr ?_
  intro x _
  rw [decide_eq_decide]
  exact ne_comm

/-! Pulse counting. -/

theorem countPulses_append (a b : List Ev) :
    countPulses (a ++ b) = countPulses a + countPulses b :=
  List.countP_append _ _ _

theorem set_pixel_fst (st : Nat → Nat → Nat) (t : Nat) (mode : SweepMode)
    (row col : Nat) (v : Bool) :
    (flip_dot_set_pixel (mkDisplay st t mode) row col v).1 =
      mkDisplay (fun r c => if r = row ∧ c = col then (if v then 1 else 0) else st r c)
        t mode := rfl

theorem countPulses_set_pixel (st : Nat → Nat → Nat) (t : Nat) (mode : SweepMode)
    (row col : Nat) (v : Bool) :
    countPulses (flip_dot_set_pixel (mkDisplay st t mode) row col v).2 = 1 := by
  simp [flip_dot_set_pixel, mkDisplay, initEnableDemux, initRowDemux, initColDemux,
    demux_74HC139_set_row_output, demux_74HC139_set_col_output,
    demux_74HC4514_set_output, gpio_write, countPulses, isPulseOn,
    List.countP_append, List.countP_cons]

theorem runFlips_countPulses (data : Nat → Nat → Nat) :
    ∀ (l : List (Nat × Nat)) (st : Nat → Nat → Nat) (t : Nat) (mode : SweepMode),
      countPulses (runFlips data (mkDisplay st t mode) l).2 = l.length := by
  intro l
  induction l with
  | nil => intro st t mode; rfl
  | cons rc rest ih =>
    intro st t mode
    simp only [runFlips]
    rw [set_pixel_fst]
    rw [countPulses_append, countPulses_set_pixel, ih]
    simp [Nat.add_comm]

theorem mem_pixelSeq {rs cs : List Nat} {x y : Nat} :
    (x, y) ∈ pixelSeq rs cs ↔ x ∈ rs ∧ y ∈ cs := by
  simp [pixelSeq]

theorem pixelSeq_nodup_of {rs cs : List Nat} (hrs : rs.Nodup) (hcs : cs.Nodup) :
    (pixelSeq rs cs).Nodup := by
  induction rs with
  | nil => simp [pixelSeq]
  | cons r rest ih =>
    have hstep : pixelSeq (r :: rest) cs =
        cs.map (fun c => (r, c)) ++ pixelSeq rest cs := by
      simp [pixelSeq]
    rw [hstep, List.nodup_append]
    refine ⟨?_, ih (List.Nodup.of_cons hrs), ?_⟩
    · refine hcs.map ?_
      intro a b hab
      exact ((Prod.mk.injEq _ _ _ _).mp hab).2
    · intro p hp hp2
      rcases List.mem_map.mp hp with ⟨c, _, hc⟩
      subst hc
      have hmem := (mem_pixelSeq.mp hp2).1
      exact (List.nodup_cons.mp hrs).1 hmem

theorem pixelSeq_nodup :
    (pixelSeq (List.range DISPLAY_HEIGHT) (List.range DISPLAY_WIDTH)).Nodup :=
  pixelSeq_nodup_of (List.nodup_range _) (List.nodup_range _)

/-! Claim theorems. -/

/-- Claim C1 counterexample: in SWEEP_RANDOM mode with a target frame equal
to the mirror (flip_count = 0), flip_dot_update_display has no defined
execution at all: the Fisher-Yates loop starts at the uint16_t underflow
index 65535 and accesses flip_list out of bounds (undefined behavior in C)
before any pulse or return, so the update does not issue zero pulses and
return as the claim asserts. -/
theorem update_noop_random_hits_oob :
    flip_dot_update_display (mkDisplay zeroGrid 2000 SweepMode.SWEEP_RANDOM) zeroGrid
      (fun _ => 0) (fun _ => (0, 0)) = none := by
  show Option.map _ (updateFlipOrder (mkDisplay zeroGrid 2000 SweepMode.SWEEP_RANDOM)
    zeroGrid (fun _ => 0) (fun _ => (0, 0))) = none
  rw [updateFlipOrder_noop_random]
  rfl

/-- Claim C1 amended: whenever flip_dot_update_display completes - always in
SWEEP_ROW, SWEEP_COL and SWEEP_DIAG modes, and in SWEEP_RANDOM whenever the
frame differs from the mirror in at least one cell - it issues exactly as
many enable pulses as the Hamming distance between mirror and frame.  In
SWEEP_RANDOM with an equal frame the update instead hits the out-of-bounds
shuffle (undefined behavior), so no pulse-count guarantee, in particular not
the zero-pulse no-op, exists there. -/
theorem update_pulse_count_eq_hamming (st data : Nat → Nat → Nat) (t : Nat)
    (mode : SweepMode) (rands : Nat → Nat) (junk : Nat → Nat × Nat)
    (h : mode = SweepMode.SWEEP_RANDOM → 1 ≤ (diffList st data).length) :
    (flip_dot_update_display (mkDisplay st t mode) data rands junk).map
      (fun s => countPulses s.2) = some (hammingDistance st data) := by
  obtain ⟨order, horder⟩ := updateFlipOrder_isSome st data t mode rands junk h
  have hperm := updateFlipOrder_perm st data t mode rands junk order horder
  show (Option.map _ (updateFlipOrder (mkDisplay st t mode) data rands junk)).map _ = _
  rw [horder]
  simp only [Option.map_some', Option.some.injEq]
  rw [runFlips_countPulses, hperm.length_eq, diffList_length_eq_hamming]

/-- Witness for Claim C1 at a concrete input: SWEEP_ROW update of the frame
with three set pixels against the all-zero mirror. -/
theorem update_pulse_count_witness :
    (SweepMode.SWEEP_ROW = SweepMode.SWEEP_RANDOM →
      1 ≤ (diffList zeroGrid exFrame).length) ∧
    (flip_dot_update_display (mkDisplay zeroGrid 2000 SweepMode.SWEEP_ROW) exFrame
      (fun _ => 0) (fun _ => (0, 0))).map (fun s => countPulses s.2) =
      some (hammingDistance zeroGrid exFrame) :=
  ⟨by decide,
    update_pulse_count_eq_hamming zeroGrid exFrame 2000 SweepMode.SWEEP_ROW
      (fun _ => 0) (fun _ => (0, 0)) (by decide)⟩

/-- Claim C3 counterexample: in SWEEP_RANDOM mode with a target frame equal
to the mirror, flip_dot_update_display has no defined execution (the shuffle
accesses flip_list out of bounds before the flip loop and the bulk commit),
so there is no final mirror cell to compare with the frame: the claimed
convergence fails for this sweep mode and prior state. -/
theorem update_mirror_undefined_noop_random :
    (flip_dot_update_display (mkDisplay zeroGrid 3000 SweepMode.SWEEP_RANDOM) zeroGrid
      (fun _ => 0) (fun _ => (0, 0))).map (fun s => s.1.pixel_state 0 0) = none := by
  show ((Option.map _ (updateFlipOrder (mkDisplay zeroGrid 3000 SweepMode.SWEEP_RANDOM)
    zeroGrid (fun _ => 0) (fun _ => (0, 0)))).map _ : Option Nat) = none
  rw [updateFlipOrder_noop_random]
  rfl

/-- Claim C3 amended: whenever flip_dot_update_display completes - always in
SWEEP_ROW, SWEEP_COL and SWEEP_DIAG modes, and in SWEEP_RANDOM whenever the
diff list is nonempty - every in-range cell of the resulting pixel_state
equals the corresponding cell of the target frame.  In SWEEP_RANDOM with a
frame equal to the mirror the update hits the out-of-bounds shuffle
(undefined behavior) before the bulk commit, and no final mirror is defined. -/
theorem update_mirror_convergence (st data : Nat → Nat → Nat) (t : Nat)
    (mode : SweepMode) (rands : Nat → Nat) (junk : Nat → Nat × Nat) (r c : Nat)
    (h : mode = SweepMode.SWEEP_RANDOM → 1 ≤ (diffList st data).length)
    (hr : r < DISPLAY_HEIGHT) (hc : c < DISPLAY_WIDTH) :
    (flip_dot_update_display (mkDisplay st t mode) data rands junk).map
      (fun s => s.1.pixel_state r c) = some (data r c) := by
  obtain ⟨order, horder⟩ := updateFlipOrder_isSome st data t mode rands junk h
  show (Option.map _ (updateFlipOrder (mkDisplay st t mode) data rands junk)).map _ = _
  rw [horder]
  simp only [Option.map_some', Option.some.injEq]
  show (if r < DISPLAY_HEIGHT ∧ c < DISPLAY_WIDTH then data r c else _) = data r c
  rw [if_pos ⟨hr, hc⟩]

/-- Witness for Claim C3 at a concrete input: frame all ones against the
all-zero mirror in SWEEP_ROW mode, cell (0, 0). -/
theorem update_mirror_convergence_witness :
    (SweepMode.SWEEP_ROW = SweepMode.SWEEP_RANDOM →
      1 ≤ (diffList zeroGrid (fun _ _ => 1)).length) ∧
    0 < DISPLAY_HEIGHT ∧ 0 < DISPLAY_WIDTH ∧
    (flip_dot_update_display (mkDisplay zeroGrid 2000 SweepMode.SWEEP_ROW)
      (fun _ _ => 1) (fun _ => 0) (fun _ => (0, 0))).map
      (fun s => s.1.pixel_state 0 0) = some 1 :=
  ⟨by decide, by decide, by decide,
    update_mirror_convergence zeroGrid (fun _ _ => 1) 2000 SweepMode.SWEEP_ROW
      (fun _ => 0) (fun _ => (0, 0)) 0 0 (by decide) (by decide) (by decide)⟩

/-- Claim C7 counterexample: in SWEEP_RANDOM mode with a target frame equal
to the mirror, the sweep reordering is not defined at all: the Fisher-Yates
loop accesses flip_list out of bounds (undefined behavior), so there is no
multiset of flipped coordinates to compare with the (empty) diff set. -/
theorem sweep_order_undefined_noop_random :
    updateFlipOrder (mkDisplay zeroGrid 4000 SweepMode.SWEEP_RANDOM) zeroGrid
      (fun _ => 0) (fun _ => (0, 0)) = none :=
  updateFlipOrder_noop_random 4000

/-- Claim C7 amended: whenever the sweep reordering completes - always,
except in SWEEP_RANDOM with an empty diff list, where the shuffle accesses
flip_list out of bounds - the list of coordinates the flip loop passes to
flip_dot_set_pixel is a permutation of the row-major diff list, which itself
enumerates the set of differing coordinates without repetition. -/
theorem sweep_is_permutation (st data : Nat → Nat → Nat) (t : Nat)
    (mode : SweepMode) (rands : Nat → Nat) (junk : Nat → Nat × Nat)
    (h : mode = SweepMode.SWEEP_RANDOM → 1 ≤ (diffList st data).length) :
    ∃ order, updateFlipOrder (mkDisplay st t mode) data rands junk = some order ∧
      order.Perm (diffList st data) ∧ (diffList st data).Nodup := by
  obtain ⟨order, horder⟩ := updateFlipOrder_isSome st data t mode rands junk h
  exact ⟨order, horder, updateFlipOrder_perm st data t mode rands junk order horder,
    pixelSeq_nodup.filter _⟩

/-- Witness for Claim C7 at a concrete input: SWEEP_COL update of the frame
with three set pixels against the all-zero mirror. -/
theorem sweep_is_permutation_witness :
    (SweepMode.SWEEP_COL = SweepMode.SWEEP_RANDOM →
      1 ≤ (diffList zeroGrid exFrame).length) ∧
    (∃ order, updateFlipOrder (mkDisplay zeroGrid 2000 SweepMode.SWEEP_COL) exFrame
      (fun _ => 0) (fun _ => (0, 0)) = some order ∧
      order.Perm (diffList zeroGrid exFrame) ∧ (diffList zeroGrid exFrame).Nodup) :=
  ⟨by decide,
    sweep_is_permutation zeroGrid exFrame 2000 SweepMode.SWEEP_COL
      (fun _ => 0) (fun _ => (0, 0)) (by decide)⟩

/-- Claim C8: flip_dot_clear_display is the same operation (same display
state and same event sequence) as flip_dot_set_rows_cols over the whole grid
with value false. -/
theorem clear_eq_set_rows_cols (d : FlipDotT) :
    flip_dot_clear_display d = flip_dot_set_rows_cols d 0 12 0 27 false := by
  simp [flip_dot_clear_display, flip_dot_set_rows_cols, DISPLAY_HEIGHT,
    DISPLAY_WIDTH, List.range_eq_range']

/-- Claim C5 counterexample: with an all-zero mirror and a frame set at
(0,2), (1,2), (2,1), the diff list is built as (0,2), (1,2), (2,1) in
row-major order, but the SWEEP_COL reordering emits (2,1), (1,2), (0,2):
the two entries of equal column 2 appear in reversed row-major order, so the
exchange sort is not stable. -/
theorem col_sweep_not_stable :
    diffList zeroGrid exFrame = [(0, 2), (1, 2), (2, 1)] ∧
    updateFlipOrder (mkDisplay zeroGrid 2000 SweepMode.SWEEP_COL) exFrame
      (fun _ => 0) (fun _ => (0, 0)) = some [(2, 1), (1, 2), (0, 2)] ∧
    (colSort (diffList zeroGrid exFrame)).indexOf (1, 2) <
      (colSort (diffList zeroGrid exFrame)).indexOf (0, 2) ∧
    (diffList zeroGrid exFrame).indexOf (0, 2) <
      (diffList zeroGrid exFrame).indexOf (1, 2) := by
  decide

/-- Claim C5 amended: in SWEEP_COL mode the reordering applied to the diff
list is a sort by column index, non-decreasing and a permutation of the diff
list, but it is not a stable sort: entries of equal column index need not
keep their row-major relative order. -/
theorem col_sweep_sorted_perm (st data : Nat → Nat → Nat) (t : Nat)
    (rands : Nat → Nat) (junk : Nat → Nat × Nat) :
    updateFlipOrder (mkDisplay st t SweepMode.SWEEP_COL) data rands junk =
      some (colSort (diffList st data)) ∧
    (colSort (diffList st data)).Perm (diffList st data) ∧
    (colSort (diffList st data)).Pairwise (fun a b => a.2 ≤ b.2) :=
  ⟨rfl, colSort_perm _, colSort_sorted _⟩

/-- Claim C6: for every in-range coordinate, the signal sequence of
flip_dot_set_pixel is exactly the spec addressing protocol applied to
row_group = row / 7, row_offset = row % 7, col_group = col / 7,
col_offset = col % 7, with the single polarity bit NOT value entering the
output positions of both axes; in particular 8 and 10 decompose into groups
1, 1 and offsets 1, 3. -/
theorem set_pixel_addressing (d : FlipDotT) (row col : Nat) (v : Bool)
    (_hr : row < DISPLAY_HEIGHT) (_hc : col < DISPLAY_WIDTH) :
    (flip_dot_set_pixel d row col v).2 =
      spec_pixel_signal_trace d (row / 7) (row % 7) (col / 7) (col % 7) (!v) ∧
    8 / 7 = 1 ∧ 8 % 7 = 1 ∧ 10 / 7 = 1 ∧ 10 % 7 = 3 :=
  ⟨rfl, by decide⟩

/-- Witness for Claim C6 at the concrete pixel (8, 10) of the spec property
P5: groups 1, 1 and offsets 1, 3, polarity bit false for value true. -/
theorem set_pixel_addressing_witness :
    8 < DISPLAY_HEIGHT ∧ 10 < DISPLAY_WIDTH ∧
    ((flip_dot_set_pixel (mkDisplay zeroGrid 2000 SweepMode.SWEEP_ROW) 8 10 true).2 =
      spec_pixel_signal_trace (mkDisplay zeroGrid 2000 SweepMode.SWEEP_ROW)
        1 1 1 3 false ∧
      8 / 7 = 1 ∧ 8 % 7 = 1 ∧ 10 / 7 = 1 ∧ 10 % 7 = 3) :=
  ⟨by decide, by decide,
    set_pixel_addressing (mkDisplay zeroGrid 2000 SweepMode.SWEEP_ROW) 8 10 true
      (by decide) (by decide)⟩

/-- Claim C4 counterexample: flip_dot_init issues no enable pulse at all, so
it does not perform a full-display clear (which flips every pixel and would
issue one pulse per pixel); the application performs the initial clear by a
separate flip_dot_clear_display call after init. -/
theorem init_issues_no_pulses :
    countPulses (flip_dot_init 2000 SweepMode.SWEEP_ROW).2 = 0 ∧
    (flip_dot_init 2000 SweepMode.SWEEP_ROW).2.filter isPulseOn = [] := by
  decide

/-- Claim C4 amended: for every pulse duration and sweep mode, flip_dot_init
zeroes every cell of the mirror, but performs no full-display clear: its
event list contains no enable pulse, hence no pixel flip. -/
theorem init_zeroes_mirror_without_clear (t : Nat) (mode : SweepMode) :
    (∀ r c, (flip_dot_init t mode).1.pixel_state r c = 0) ∧
    countPulses (flip_dot_init t mode).2 = 0 :=
  ⟨fun _ _ => rfl, rfl⟩

/-- Claim C2: flip_dot_set_pixel does not reject out-of-range coordinates.
At (13, 0, true) and at (0, 28, true) it still emits the decoder signal
writes and one full enable pulse, and it still stores the value, at an index
outside the 13 x 28 pixel_state array (an out-of-bounds write in C). -/
theorem set_pixel_out_of_range_not_rejected :
    countPulses (flip_dot_set_pixel (mkDisplay zeroGrid 2000 SweepMode.SWEEP_ROW)
      13 0 true).2 = 1 ∧
    (flip_dot_set_pixel (mkDisplay zeroGrid 2000 SweepMode.SWEEP_ROW)
      13 0 true).2 ≠ [] ∧
    (flip_dot_set_pixel (mkDisplay zeroGrid 2000 SweepMode.SWEEP_ROW)
      13 0 true).1.pixel_state 13 0 = 1 ∧
    countPulses (flip_dot_set_pixel (mkDisplay zeroGrid 2000 SweepMode.SWEEP_ROW)
      0 28 true).2 = 1 ∧
    (flip_dot_set_pixel (mkDisplay zeroGrid 2000 SweepMode.SWEEP_ROW)
      0 28 true).1.pixel_state 0 28 = 1 := by
  decide

/-- Claim C9 counterexample: right after the enable pulse of the first
set_pixel following init starts (prefix of 16 events of init followed by
set_pixel(0,0,true)), both enable lines are asserted simultaneously:
pin_1E = 21 is still at the level true written by init and pin_2E = 4 has
just been driven true. -/
theorem both_enables_asserted :
    lineLevel (((flip_dot_init 2000 SweepMode.SWEEP_ROW).2 ++
      (flip_dot_set_pixel (flip_dot_init 2000 SweepMode.SWEEP_ROW).1
        0 0 true).2).take 16) 21 = some true ∧
    lineLevel (((flip_dot_init 2000 SweepMode.SWEEP_ROW).2 ++
      (flip_dot_set_pixel (flip_dot_init 2000 SweepMode.SWEEP_ROW).1
        0 0 true).2).take 16) 4 = some true := by
  decide

/-- Claim C9 amended: every flip_dot_set_pixel call brackets its pulse with
exactly one enable write pair on pin_2E = 4 (true then false) and never
writes pin_1E = 21, while flip_dot_init writes pin_1E exactly once, to true;
so pin_1E stays asserted across all operations and both enable lines are
asserted together during every pulse. -/
theorem pulse_bracketed_once (st : Nat → Nat → Nat) (t : Nat) (mode : SweepMode)
    (row col : Nat) (v : Bool) :
    (flip_dot_set_pixel (mkDisplay st t mode) row col v).2.filter (onPin 4) =
      [Ev.gpio 4 true, Ev.gpio 4 false] ∧
    (flip_dot_set_pixel (mkDisplay st t mode) row col v).2.filter (onPin 21) = [] ∧
    (flip_dot_init t mode).2.filter (onPin 21) = [Ev.gpio 21 true] := by
  refine ⟨?_, ?_, ?_⟩ <;>
    simp [flip_dot_set_pixel, flip_dot_init, mkDisplay, initEnableDemux,
      initRowDemux, initColDemux, demux_74HC139_set_row_output,
      demux_74HC139_set_col_output, demux_74HC4514_set_output,
      demux_74HC139_enable_output, gpio_write, onPin]

theorem fyIndices_head (rands : Nat → Nat) (i k : Nat) :
    (fyIndices rands (i + 1) k).head? = some (i + 1, rands k % (i + 1 + 1)) := rfl

/-- Claim C10: with SWEEP_RANDOM and a target frame equal to the mirror, the
diff list is empty (flip_count = 0), yet the Fisher-Yates loop starts at the
uint16_t underflow value 65535 of flip_count - 1: its first flip_list access
index is 65535, not below flip_count (and far outside the 364-entry array). -/
theorem random_shuffle_index_underflow :
    (diffList zeroGrid zeroGrid).length = 0 ∧
    fyStart (diffList zeroGrid zeroGrid).length = 65535 ∧
    (updateShuffleIndices (mkDisplay zeroGrid 2000 SweepMode.SWEEP_RANDOM) zeroGrid
      (fun _ => 0)).head? = some (65535, 0) ∧
    ¬ (65535 < (diffList zeroGrid zeroGrid).length) := by
  have hlen : (diffList zeroGrid zeroGrid).length = 0 := by decide
  have e1 : updateShuffleIndices (mkDisplay zeroGrid 2000 SweepMode.SWEEP_RANDOM)
      zeroGrid (fun _ => 0) =
      fyIndices (fun _ => 0) (fyStart (diffList zeroGrid zeroGrid).length) 0 := rfl
  refine ⟨hlen, ?_, ?_, ?_⟩
  · rw [hlen]
    decide
  · rw [e1, hlen]
    rw [show fyStart 0 = 65534 + 1 from rfl]
    rw [fyIndices_head]
  · rw [hlen]
    omega
